import Mathlib

/-!
# Verification of the go-snowflake ID generator

A shallow embedding of the snowflake ID generator: the bit-layout constants,
the pure pack (from `NextID`) and decode (`ParseID`) functions, and a
state-passing model of the stateful `NextID` algorithm.  Clock readings come
from an oracle indexed by reading count, the sequence resolver is a state
transformer over an abstract state type, and a fuel parameter bounds the two
internal wait loops (`waitForNextMillis` and the sequence-exhaustion loop);
fuel exhaustion is reported as a separate `diverge` outcome so that theorems
about the produced results are not weakened by it.
-/

namespace Snowflake

/-! ## Bit-length constants (source: the `const` block) -/

def TimestampLength : Nat := 43
def MachineIDLength : Nat := 9
def SequenceLength : Nat := 12
def MaxSequence : Nat := 1 <<< SequenceLength - 1
def MaxTimestamp : Nat := 1 <<< TimestampLength - 1
def MaxMachineID : Nat := 1 <<< MachineIDLength - 1
def machineIDMoveLength : Nat := SequenceLength
def timestampMoveLength : Nat := MachineIDLength + SequenceLength

theorem MaxSequence_eq : MaxSequence = 4095 := rfl
theorem MaxTimestamp_eq : MaxTimestamp = 2 ^ 43 - 1 := rfl
theorem MaxMachineID_eq : MaxMachineID = 511 := rfl

/-! ## SID and ParseID (pure decode) -/

/-- The `SID` struct of parsed snowflake id fields.  The fields are `uint64`
in the source; every value stored in them is below `2^64`, so they are
modelled as `Nat`. -/
structure SID where
  Sequence : Nat
  MachineID : Nat
  Timestamp : Nat
  ID : Nat
deriving DecidableEq, Repr

/-- `ParseID` parses a snowflake id into an `SID` struct; pure shift/mask
decode, translated line by line from the source. -/
def ParseID (id : Nat) : SID :=
  let t := id >>> (SequenceLength + MachineIDLength)
  let sequence := id &&& MaxSequence
  let mID := (id &&& (MaxMachineID <<< SequenceLength)) >>> SequenceLength
  { ID := id, Sequence := sequence, MachineID := mID, Timestamp := t }

/-- The packing expression of `NextID`:
`id := (uint64(df) << timestampMoveLength) | (machineID << machineIDMoveLength) | uint64(seq)`.
Each `uint64` intermediate wraps modulo `2^64`. -/
def packID (df m seq : Nat) : Nat :=
  (((df <<< timestampMoveLength) % 2 ^ 64) |||
    ((m <<< machineIDMoveLength) % 2 ^ 64)) ||| (seq % 2 ^ 64)

/-- `SetMachineID` panics (modelled as `none`) when `m > MaxMachineID` and
otherwise stores `m` into the global `machineID` (returned as `some m`). -/
def SetMachineID (m : Nat) : Option Nat :=
  if m > MaxMachineID then none else some m

/-! ## Round-trip lemmas for the pure pack/decode pair -/

theorem mask_shift (x : Nat) :
    (x &&& (MaxMachineID <<< SequenceLength)) >>> SequenceLength =
      (x >>> SequenceLength) &&& MaxMachineID := by
  apply Nat.eq_of_testBit_eq
  intro j
  simp [Nat.testBit_shiftRight, Nat.testBit_and, Nat.testBit_shiftLeft,
    SequenceLength, MaxMachineID]

theorem packID_eq_add {df m s : Nat} (hdf : df ≤ MaxTimestamp)
    (hm : m ≤ MaxMachineID) (hs : s ≤ MaxSequence) :
    packID df m s = df * 2 ^ 21 + m * 2 ^ 12 + s := by
  rw [MaxTimestamp_eq] at hdf
  rw [MaxMachineID_eq] at hm
  rw [MaxSequence_eq] at hs
  have h1 : df <<< timestampMoveLength = 2 ^ 21 * df := by
    rw [Nat.shiftLeft_eq]; ring_nf; rfl
  have h2 : m <<< machineIDMoveLength = 2 ^ 12 * m := by
    rw [Nat.shiftLeft_eq]; ring_nf; rfl
  have hb1 : 2 ^ 21 * df < 2 ^ 64 := by
    have h43 : df < 2 ^ 43 := by omega
    omega
  have hb2 : 2 ^ 12 * m < 2 ^ 21 := by omega
  have hb3 : s < 2 ^ 12 := by omega
  unfold packID
  rw [h1, h2, Nat.mod_eq_of_lt hb1, Nat.mod_eq_of_lt (by omega),
    Nat.mod_eq_of_lt (by omega : s < 2 ^ 64)]
  rw [← Nat.mul_add_lt_is_or hb2 df]
  have e : 2 ^ 21 * df + 2 ^ 12 * m = 2 ^ 12 * (2 ^ 9 * df + m) := by ring
  rw [e, ← Nat.mul_add_lt_is_or hb3 (2 ^ 9 * df + m)]
  ring

theorem ParseID_packID {df m s : Nat} (hdf : df ≤ MaxTimestamp)
    (hm : m ≤ MaxMachineID) (hs : s ≤ MaxSequence) :
    ParseID (packID df m s) =
      { Sequence := s, MachineID := m, Timestamp := df, ID := packID df m s } := by
  have hp := packID_eq_add hdf hm hs
  rw [MaxTimestamp_eq] at hdf
  rw [MaxMachineID_eq] at hm
  rw [MaxSequence_eq] at hs
  unfold ParseID
  rw [mask_shift]
  have e1 : packID df m s &&& MaxSequence = s := by
    have e : packID df m s &&& MaxSequence = packID df m s % 2 ^ 12 := by
      rw [MaxSequence_eq]
      have := Nat.and_pow_two_sub_one_eq_mod (packID df m s) 12
      simpa using this
    rw [e, hp]; omega
  have e2 : (packID df m s >>> SequenceLength) &&& MaxMachineID = m := by
    have h9 : (packID df m s >>> SequenceLength) &&& MaxMachineID =
        (packID df m s >>> SequenceLength) % 2 ^ 9 := by
      rw [MaxMachineID_eq]
      have := Nat.and_pow_two_sub_one_eq_mod (packID df m s >>> SequenceLength) 9
      simpa using this
    rw [h9, Nat.shiftRight_eq_div_pow, hp]
    show (df * 2 ^ 21 + m * 2 ^ 12 + s) / 2 ^ 12 % 2 ^ 9 = m
    omega
  have e3 : packID df m s >>> (SequenceLength + MachineIDLength) = df := by
    rw [Nat.shiftRight_eq_div_pow, hp]
    show (df * 2 ^ 21 + m * 2 ^ 12 + s) / 2 ^ 21 = df
    have h43 : df < 2 ^ 43 := by omega
    omega
  simp only [e1, e2, e3]

/-! ## The stateful model of `NextID` -/

/-- The three runtime error classes of `NextID`: the clock-backward error,
an error propagated from the sequence resolver, and the epoch-range error. -/
inductive SnowErr where
  | clockBackward
  | resolverErr
  | epochRange
deriving DecidableEq, Repr

/-- The mutable state threaded through a `NextID` run: the index of the next
clock reading to consume, the `lastTimestamp` watermark, and the state of the
current sequence resolver (abstract type `σ`). -/
structure GenState (σ : Type) where
  clkIdx : Nat
  lastTimestamp : Int
  resSt : σ
deriving DecidableEq, Repr

/-- The read-only environment of a `NextID` run: the clock oracle (one
millisecond reading per `currentMillis` call), the active sequence resolver
as a state transformer, and the global `machineID` and `startTime`
(as epoch milliseconds) configuration values. -/
structure Env (σ : Type) where
  clock : Nat → Int
  resolve : Int → σ → σ × Except Unit Nat
  machineID : Nat
  startTimeMs : Int

/-- `currentMillis` consumes the next clock-oracle reading. -/
def currentMillis (env : Env σ) (st : GenState σ) : Int × GenState σ :=
  (env.clock st.clkIdx, { st with clkIdx := st.clkIdx + 1 })

/-- `waitForNextMillis` re-reads the clock until it is strictly past `last`
(the nanosecond sleep between polls does not affect the returned value). -/
def waitForNextMillis (env : Env σ) : Nat → Int → GenState σ → Option (Int × GenState σ)
  | 0, _, _ => none
  | fuel + 1, last, st =>
    let p := currentMillis env st
    if p.1 > last then some (p.1, p.2)
    else waitForNextMillis env fuel last p.2

/-- Outcome of the sequence-exhaustion loop of `NextID`. -/
inductive LoopOut (σ : Type) where
  | ok (now : Int) (seq : Nat) (st : GenState σ)
  | err (st : GenState σ)
  | diverge
deriving Repr

/-- The `for seq >= MaxSequence` loop of `NextID`: wait for a strictly later
millisecond, re-resolve the sequence, propagate resolver errors, repeat. -/
def seqLoop (env : Env σ) (fuel : Nat) (now : Int) (seq : Nat) (st : GenState σ) :
    LoopOut σ :=
  if seq ≥ MaxSequence then
    match fuel with
    | 0 => .diverge
    | fuel' + 1 =>
      match waitForNextMillis env fuel' now st with
      | none => .diverge
      | some (now', st') =>
        match env.resolve now' st'.resSt with
        | (rs, .error _) => .err { st' with resSt := rs }
        | (rs, .ok seq') => seqLoop env fuel' now' seq' { st' with resSt := rs }
  else .ok now seq st

/-- Outcome of a `NextID` call: a generated id, or the returned numeric value
(always `0` in the source) together with an error, or fuel exhaustion. -/
inductive NextIDOut (σ : Type) where
  | ok (id : Nat) (st : GenState σ)
  | err (ret : Nat) (e : SnowErr) (st : GenState σ)
  | diverge
deriving DecidableEq, Repr

/-- The tail of `NextID` after the clock-backward handling: resolve the
sequence, run the exhaustion loop, store the watermark, range-check `df`,
pack the id. -/
def nextIDFrom (env : Env σ) (fuel : Nat) (now : Int) (st : GenState σ) : NextIDOut σ :=
  match env.resolve now st.resSt with
  | (rs, .error _) => .err 0 .resolverErr { st with resSt := rs }
  | (rs, .ok seq) =>
    match seqLoop env fuel now seq { st with resSt := rs } with
    | .diverge => .diverge
    | .err st' => .err 0 .resolverErr st'
    | .ok now' seq' st' =>
      let st2 := { st' with lastTimestamp := now' }
      let df : Int := now' - env.startTimeMs
      if df < 0 ∨ (MaxTimestamp : Int) < df then .err 0 .epochRange st2
      else .ok (packID df.toNat env.machineID seq') st2

/-- `NextID`: read `now` and the watermark; if the clock moved backward more
than 5000 ms fail with the clock-backward error, if it moved backward at most
5000 ms sleep for the drift and re-read `now`; then continue with
`nextIDFrom`. -/
def NextID (env : Env σ) (fuel : Nat) (st : GenState σ) : NextIDOut σ :=
  let p := currentMillis env st
  if p.1 < p.2.lastTimestamp then
    if p.2.lastTimestamp - p.1 > 5000 then .err 0 .clockBackward p.2
    else
      let q := currentMillis env p.2
      nextIDFrom env fuel q.1 q.2
  else nextIDFrom env fuel p.1 p.2

/-- State of the default atomic sequence resolver: the last-seen millisecond
and the counter. -/
structure ARState where
  lastMs : Int
  counter : Nat
deriving DecidableEq, Repr

/-- Modelled from the spec: the default `AtomicResolver` is referenced by
`callSequenceResolver` but its definition is not among the provided source
files.  Per the spec, it maintains a shared counter plus the last-seen
millisecond: if the incoming `ms` differs from the stored millisecond, reset
the counter to 0 and adopt the new millisecond; otherwise increment and
return the new value.  It never fails. -/
def AtomicResolver (ms : Int) (s : ARState) : ARState × Except Unit Nat :=
  if ms = s.lastMs then
    ({ lastMs := s.lastMs, counter := s.counter + 1 }, .ok (s.counter + 1))
  else
    ({ lastMs := ms, counter := 0 }, .ok 0)

/-! ## Characterization lemmas for the stateful model -/

theorem wait_spec {σ : Type} (env : Env σ) :
    ∀ (fuel : Nat) (last now' : Int) (st st' : GenState σ),
      waitForNextMillis env fuel last st = some (now', st') →
      last < now' ∧ st'.lastTimestamp = st.lastTimestamp ∧ st'.resSt = st.resSt ∧
        st.clkIdx < st'.clkIdx ∧
        ∃ j, st.clkIdx ≤ j ∧ j < st'.clkIdx ∧ env.clock j = now' := by
  intro fuel
  induction fuel with
  | zero => intro last now' st st' h; simp [waitForNextMillis] at h
  | succ n ih =>
    intro last now' st st' h
    simp only [waitForNextMillis, currentMillis] at h
    by_cases hgt : env.clock st.clkIdx > last
    · rw [if_pos hgt] at h
      cases h
      exact ⟨hgt, rfl, rfl, Nat.lt_succ_self _, st.clkIdx, Nat.le_refl _,
        Nat.lt_succ_self _, rfl⟩
    · rw [if_neg hgt] at h
      obtain ⟨hlt, he1, he2, hlt2, j, hj1, hj2, hj3⟩ := ih last now' _ st' h
      exact ⟨hlt, he1, he2, by simp at hlt2 he1 he2 ⊢; omega,
        j, by simp at hj1; omega, hj2, hj3⟩

theorem seqLoop_spec {σ : Type} (env : Env σ) (P : Int → Nat → σ → Prop)
    (hres : ∀ ms s rs q, env.resolve ms s = (rs, .ok q) → P ms q rs) :
    ∀ (fuel : Nat) (now now' : Int) (seq seq' : Nat) (st st' : GenState σ),
      P now seq st.resSt →
      seqLoop env fuel now seq st = .ok now' seq' st' →
      seq' < MaxSequence ∧ now ≤ now' ∧ st'.lastTimestamp = st.lastTimestamp ∧
        st.clkIdx ≤ st'.clkIdx ∧ P now' seq' st'.resSt ∧
        (st' = st ∧ now' = now ∧ seq' = seq ∨
          (now < now' ∧ ∃ j, st.clkIdx ≤ j ∧ j < st'.clkIdx ∧ env.clock j = now')) := by
  intro fuel
  induction fuel with
  | zero =>
    intro now now' seq seq' st st' hP h
    by_cases hge : seq ≥ MaxSequence
    · simp only [seqLoop, if_pos hge] at h
      cases h
    · simp only [seqLoop, if_neg hge] at h
      cases h
      exact ⟨by omega, le_refl _, rfl, le_refl _, hP, Or.inl ⟨rfl, rfl, rfl⟩⟩
  | succ n ih =>
    intro now now' seq seq' st st' hP h
    by_cases hge : seq ≥ MaxSequence
    · simp only [seqLoop, if_pos hge] at h
      cases hw : waitForNextMillis env n now st with
      | none => rw [hw] at h; cases h
      | some p =>
        obtain ⟨noww, stw⟩ := p
        rw [hw] at h
        obtain ⟨hlt, hlast, hres', hclk, j, hj1, hj2, hj3⟩ :=
          wait_spec env n now noww st stw hw
        cases hr : env.resolve noww stw.resSt with
        | mk rs res =>
          cases res with
          | error e =>
            simp only [hr] at h
            cases h
          | ok q =>
            simp only [hr] at h
            have hPq : P noww q rs := hres _ _ _ _ hr
            obtain ⟨b1, b2, b3, b4, b5, b6⟩ :=
              ih noww now' q seq' { stw with resSt := rs } st' hPq h
            refine ⟨b1, by omega, by simp at b3 ⊢; omega, by simp at b4 ⊢; omega, b5, ?_⟩
            right
            rcases b6 with ⟨heq, h2, h3⟩ | ⟨hlt2, k, hk1, hk2, hk3⟩
            · subst h2
              refine ⟨hlt, j, hj1, ?_, hj3⟩
              rw [heq]
              simpa using hj2
            · exact ⟨by omega, k, by simp at hk1; omega, hk2, hk3⟩
    · simp only [seqLoop, if_neg hge] at h
      cases h
      exact ⟨by omega, le_refl _, rfl, le_refl _, hP, Or.inl ⟨rfl, rfl, rfl⟩⟩

theorem nextIDFrom_spec {σ : Type} (env : Env σ) (P : Int → Nat → σ → Prop)
    (hres : ∀ ms s rs q, env.resolve ms s = (rs, .ok q) → P ms q rs)
    (fuel : Nat) (now : Int) (st : GenState σ) (id : Nat) (st' : GenState σ)
    (h : nextIDFrom env fuel now st = .ok id st') :
    ∃ seq', seq' < MaxSequence ∧
      st'.lastTimestamp - env.startTimeMs ≥ 0 ∧
      st'.lastTimestamp - env.startTimeMs ≤ (MaxTimestamp : Int) ∧
      id = packID (st'.lastTimestamp - env.startTimeMs).toNat env.machineID seq' ∧
      P st'.lastTimestamp seq' st'.resSt ∧
      now ≤ st'.lastTimestamp ∧ st.clkIdx ≤ st'.clkIdx ∧
      (st'.lastTimestamp = now ∨
        ∃ j, st.clkIdx ≤ j ∧ j < st'.clkIdx ∧ env.clock j = st'.lastTimestamp) := by
  unfold nextIDFrom at h
  cases hr : env.resolve now st.resSt with
  | mk rs res =>
    cases res with
    | error e =>
      simp only [hr] at h
      cases h
    | ok seq =>
      simp only [hr] at h
      have hP0 : P now seq ({ st with resSt := rs } : GenState σ).resSt := hres _ _ _ _ hr
      cases hl : seqLoop env fuel now seq { st with resSt := rs } with
      | diverge => rw [hl] at h; simp only at h; cases h
      | err st2 => rw [hl] at h; simp only at h; cases h
      | ok now' seq' stl =>
        rw [hl] at h
        obtain ⟨b1, b2, b3, b4, b5, b6⟩ :=
          seqLoop_spec env P hres fuel now now' seq seq' _ stl hP0 hl
        simp only at h
        by_cases hdf : (now' - env.startTimeMs < 0 ∨ (MaxTimestamp : Int) < now' - env.startTimeMs)
        · rw [if_pos hdf] at h; cases h
        · rw [if_neg hdf] at h
          cases h
          push_neg at hdf
          refine ⟨seq', b1, by simp; omega, by simp; omega, by simp, b5, by simp; omega,
            by simp at b4 ⊢; omega, ?_⟩
          rcases b6 with ⟨he, hn, _⟩ | ⟨hlt, j, hj1, hj2, hj3⟩
          · exact Or.inl (by simp [hn])
          · exact Or.inr ⟨j, by simp at hj1 ⊢; omega, by simp at hj2 ⊢; omega, by simpa using hj3⟩

theorem NextID_ok_spec {σ : Type} (env : Env σ) (P : Int → Nat → σ → Prop)
    (hres : ∀ ms s rs q, env.resolve ms s = (rs, .ok q) → P ms q rs)
    (fuel : Nat) (st : GenState σ) (id : Nat) (st' : GenState σ)
    (h : NextID env fuel st = .ok id st') :
    (∃ seq', seq' < MaxSequence ∧
      st'.lastTimestamp - env.startTimeMs ≥ 0 ∧
      st'.lastTimestamp - env.startTimeMs ≤ (MaxTimestamp : Int) ∧
      id = packID (st'.lastTimestamp - env.startTimeMs).toNat env.machineID seq' ∧
      P st'.lastTimestamp seq' st'.resSt) ∧
    (st.clkIdx < st'.clkIdx ∧
      ∃ j, st.clkIdx ≤ j ∧ j < st'.clkIdx ∧ env.clock j = st'.lastTimestamp) ∧
    (¬ env.clock st.clkIdx < st.lastTimestamp →
      env.clock st.clkIdx ≤ st'.lastTimestamp) ∧
    (env.clock st.clkIdx < st.lastTimestamp →
      env.clock (st.clkIdx + 1) ≤ st'.lastTimestamp) := by
  unfold NextID currentMillis at h
  simp only at h
  by_cases hb : env.clock st.clkIdx < st.lastTimestamp
  · rw [if_pos hb] at h
    by_cases hbig : st.lastTimestamp - env.clock st.clkIdx > 5000
    · rw [if_pos hbig] at h; cases h
    · rw [if_neg hbig] at h
      obtain ⟨seq', b1, b2, b3, b4, b5, b6, b7, b8⟩ :=
        nextIDFrom_spec env P hres fuel _ _ id st' h
      refine ⟨⟨seq', b1, b2, b3, b4, b5⟩, ⟨by simp at b7; omega, ?_⟩, ?_, fun _ => b6⟩
      · rcases b8 with he | ⟨j, hj1, hj2, hj3⟩
        · exact ⟨st.clkIdx + 1, by omega, by simp at b7; omega, he.symm⟩
        · exact ⟨j, by simp at hj1; omega, hj2, hj3⟩
      · intro hnb; exact absurd hb hnb
  · rw [if_neg hb] at h
    obtain ⟨seq', b1, b2, b3, b4, b5, b6, b7, b8⟩ :=
      nextIDFrom_spec env P hres fuel _ _ id st' h
    refine ⟨⟨seq', b1, b2, b3, b4, b5⟩, ⟨by simp at b7; omega, ?_⟩, fun _ => b6, ?_⟩
    · rcases b8 with he | ⟨j, hj1, hj2, hj3⟩
      · exact ⟨st.clkIdx, by omega, by simp at b7; omega, he.symm⟩
      · exact ⟨j, by simp at hj1; omega, hj2, hj3⟩
    · intro hyes; exact absurd hyes hb

theorem nextIDFrom_epochRange {σ : Type} (env : Env σ)
    (fuel : Nat) (now : Int) (st : GenState σ) (ret : Nat) (st' : GenState σ)
    (h : nextIDFrom env fuel now st = .err ret .epochRange st') :
    ret = 0 ∧ (st'.lastTimestamp - env.startTimeMs < 0 ∨
      (MaxTimestamp : Int) < st'.lastTimestamp - env.startTimeMs) := by
  unfold nextIDFrom at h
  cases hr : env.resolve now st.resSt with
  | mk rs res =>
    cases res with
    | error e =>
      simp only [hr] at h
      cases h
    | ok seq =>
      simp only [hr] at h
      cases hl : seqLoop env fuel now seq { st with resSt := rs } with
      | diverge => rw [hl] at h; simp only at h; cases h
      | err st2 => rw [hl] at h; simp only at h; cases h
      | ok now' seq' stl =>
        rw [hl] at h
        simp only at h
        by_cases hdf : (now' - env.startTimeMs < 0 ∨ (MaxTimestamp : Int) < now' - env.startTimeMs)
        · rw [if_pos hdf] at h
          cases h
          exact ⟨rfl, by simpa using hdf⟩
        · rw [if_neg hdf] at h; cases h

theorem NextID_epochRange {σ : Type} (env : Env σ)
    (fuel : Nat) (st : GenState σ) (ret : Nat) (st' : GenState σ)
    (h : NextID env fuel st = .err ret .epochRange st') :
    ret = 0 ∧ (st'.lastTimestamp - env.startTimeMs < 0 ∨
      (MaxTimestamp : Int) < st'.lastTimestamp - env.startTimeMs) := by
  unfold NextID currentMillis at h
  simp only at h
  by_cases hb : env.clock st.clkIdx < st.lastTimestamp
  · rw [if_pos hb] at h
    by_cases hbig : st.lastTimestamp - env.clock st.clkIdx > 5000
    · rw [if_pos hbig] at h; cases h
    · rw [if_neg hbig] at h
      exact nextIDFrom_epochRange env fuel _ _ ret st' h
  · rw [if_neg hb] at h
    exact nextIDFrom_epochRange env fuel _ _ ret st' h

theorem atomic_post (ms : Int) (s rs : ARState) (q : Nat)
    (h : AtomicResolver ms s = (rs, .ok q)) : rs.lastMs = ms ∧ rs.counter = q := by
  unfold AtomicResolver at h
  by_cases he : ms = s.lastMs
  · rw [if_pos he] at h
    cases h
    exact ⟨he.symm, rfl⟩
  · rw [if_neg he] at h
    cases h
    exact ⟨rfl, rfl⟩

end Snowflake

namespace Snowflake

/-- A shared helper: when the watermark is ahead of the clock by more than
5000 ms, `NextID` returns the pair `(0, clock-backward error)` and the state
is unchanged apart from the consumed clock reading. -/
theorem NextID_backward_err {σ : Type} (env : Env σ) (fuel : Nat) (st : GenState σ)
    (h : st.lastTimestamp - env.clock st.clkIdx > 5000) :
    NextID env fuel st = .err 0 .clockBackward { st with clkIdx := st.clkIdx + 1 } := by
  unfold NextID currentMillis
  simp only
  rw [if_pos (by omega), if_pos (by omega)]

/-- A concrete environment over the trivial resolver state, used to
instantiate the stateful theorems: the clock always reads 1000, the resolver
always returns sequence 42, the machine id is 5 and the epoch is 0. -/
def trivEnv : Env Unit :=
  { clock := fun _ => 1000, resolve := fun _ s => (s, .ok 42),
    machineID := 5, startTimeMs := 0 }

/-- An initial state for `trivEnv`. -/
def trivSt : GenState Unit := { clkIdx := 0, lastTimestamp := 0, resSt := () }

/-- An initial state whose watermark is 6000 ms ahead of `trivEnv`'s clock. -/
def backSt : GenState Unit := { clkIdx := 0, lastTimestamp := 7000, resSt := () }

end Snowflake

namespace Snowflake

/-- Claim C1: round-trip law.  For every elapsed-ms `df ≤ 2^43-1`, machine id
`m ≤ 511` and sequence `s ≤ 4095`, decoding the packed id
`(df <<< 21) ||| (m <<< 12) ||| s` with `ParseID` yields exactly `Timestamp = df`,
`MachineID = m` and `Sequence = s`; hence every id successfully returned by
`NextID` decodes back to the machine id and the epoch-relative timestamp
(the stored watermark minus the epoch) used to produce it. -/
theorem roundTrip_packID_ParseID :
    (∀ df m s : Nat, df ≤ MaxTimestamp → m ≤ MaxMachineID → s ≤ MaxSequence →
      ParseID (packID df m s) =
        { Sequence := s, MachineID := m, Timestamp := df, ID := packID df m s }) ∧
    (∀ (σ : Type) (env : Env σ) (fuel : Nat) (st : GenState σ) (id : Nat)
        (st' : GenState σ), env.machineID ≤ MaxMachineID →
      NextID env fuel st = .ok id st' →
      (ParseID id).MachineID = env.machineID ∧
      (ParseID id).Timestamp = (st'.lastTimestamp - env.startTimeMs).toNat) := by
  constructor
  · intro df m s hdf hm hs
    exact ParseID_packID hdf hm hs
  · intro σ env fuel st id st' hm h
    obtain ⟨⟨seq', b1, b2, b3, b4, _⟩, _, _, _⟩ :=
      NextID_ok_spec env (fun _ _ _ => True) (fun _ _ _ _ _ => trivial) fuel st id st' h
    subst b4
    rw [ParseID_packID ?hdf hm (le_of_lt (lt_of_lt_of_le b1 (by rw [MaxSequence_eq])))]
    case hdf =>
      rw [MaxTimestamp_eq] at b3 ⊢
      omega
    exact ⟨rfl, rfl⟩

/-- Witness for C1: the round trip at `df = 1000`, `m = 5`, `s = 42`, and the
`NextID` corollary at the concrete run of `trivEnv`. -/
theorem roundTrip_packID_ParseID_witness :
    (1000 ≤ MaxTimestamp ∧ 5 ≤ MaxMachineID ∧ 42 ≤ MaxSequence ∧
      ParseID (packID 1000 5 42) =
        { Sequence := 42, MachineID := 5, Timestamp := 1000, ID := packID 1000 5 42 }) ∧
    (trivEnv.machineID ≤ MaxMachineID ∧
      NextID trivEnv 1 trivSt = .ok 2097172522 { clkIdx := 1, lastTimestamp := 1000, resSt := () } ∧
      (ParseID 2097172522).MachineID = trivEnv.machineID ∧
      (ParseID 2097172522).Timestamp =
        (({ clkIdx := 1, lastTimestamp := 1000, resSt := () } : GenState Unit).lastTimestamp -
          trivEnv.startTimeMs).toNat) :=
  ⟨⟨by decide, by decide, by decide,
      roundTrip_packID_ParseID.1 1000 5 42 (by decide) (by decide) (by decide)⟩,
    ⟨by decide, by decide,
      roundTrip_packID_ParseID.2 Unit trivEnv 1 trivSt 2097172522 _ (by decide) (by decide)⟩⟩

/-- Claim C2: the literal example.  Packing elapsed-ms 1000, machine id 5 and
sequence 42 gives 2097172522, and `ParseID 2097172522` returns
`Timestamp = 1000`, `MachineID = 5`, `Sequence = 42`. -/
theorem literal_example_pack_parse :
    packID 1000 5 42 = 2097172522 ∧
    ParseID 2097172522 =
      { Sequence := 42, MachineID := 5, Timestamp := 1000, ID := 2097172522 } :=
  ⟨by decide, by decide⟩

/-- Counterexample to claim C3: `df = 2^42` is a legal elapsed-ms value
(`2^42 ≤ MaxTimestamp`), yet the id packed from it with machine id 0 and
sequence 0 has bit 63 set: the 43-bit timestamp occupies bits 21..63, so the
top bit of the id equals bit 42 of `df` and is not always zero. -/
theorem topBit_counterexample :
    2 ^ 42 ≤ MaxTimestamp ∧ (0 : Nat) ≤ MaxMachineID ∧ (0 : Nat) ≤ MaxSequence ∧
    (packID (2 ^ 42) 0 0).testBit 63 = true :=
  ⟨by decide, by decide, by decide, by decide⟩

/-- Claim C3 (amended): for every packed id whose elapsed-ms `df` is below
`2^42` (bit 42 of the timestamp clear), with `m ≤ 511` and `s ≤ 4095`, bit 63
of the 64-bit id is zero.  For `df ≥ 2^42` the bit is the top timestamp bit. -/
theorem topBit_zero_of_small_timestamp {df m s : Nat} (hdf : df < 2 ^ 42)
    (hm : m ≤ MaxMachineID) (hs : s ≤ MaxSequence) :
    (packID df m s).testBit 63 = false := by
  have hdf' : df ≤ MaxTimestamp := by rw [MaxTimestamp_eq]; omega
  have hp := packID_eq_add hdf' hm hs
  apply Nat.testBit_lt_two_pow
  rw [hp]
  rw [MaxMachineID_eq] at hm
  rw [MaxSequence_eq] at hs
  omega

/-- Witness for the amended C3 at `df = 1000`, `m = 5`, `s = 42`. -/
theorem topBit_zero_witness :
    1000 < 2 ^ 42 ∧ 5 ≤ MaxMachineID ∧ 42 ≤ MaxSequence ∧
    (packID 1000 5 42).testBit 63 = false :=
  ⟨by decide, by decide, by decide,
    topBit_zero_of_small_timestamp (by decide) (by decide) (by decide)⟩

/-- Claim C4: if at the start of a `NextID` call the current millisecond is
behind the stored watermark by more than 5000 ms, `NextID` returns the
clock-backward error together with the zero id, and neither the watermark nor
the resolver state is mutated (only the clock reading was consumed). -/
theorem nextID_clockBackward_no_mutation {σ : Type} (env : Env σ) (fuel : Nat)
    (st : GenState σ) (h : st.lastTimestamp - env.clock st.clkIdx > 5000) :
    NextID env fuel st = .err 0 .clockBackward { st with clkIdx := st.clkIdx + 1 } :=
  NextID_backward_err env fuel st h

/-- Witness for C4: watermark 7000, clock 1000, drift 6000 ms. -/
theorem nextID_clockBackward_witness :
    backSt.lastTimestamp - trivEnv.clock backSt.clkIdx > 5000 ∧
    NextID trivEnv 1 backSt =
      .err 0 .clockBackward { backSt with clkIdx := backSt.clkIdx + 1 } :=
  ⟨by decide, nextID_clockBackward_no_mutation trivEnv 1 backSt (by decide)⟩

/-- Claim C5: `NextID` fails with the epoch-range error (returning the zero
id) exactly when the elapsed milliseconds `df = now - epoch` computed at the
range check (recoverable from the returned state, whose watermark is the
final `now`) is negative or exceeds `2^43-1`; when `NextID` succeeds, that
`df` is within `[0, 2^43-1]` and is the timestamp field of the returned id. -/
theorem nextID_epochRange_characterization {σ : Type} (env : Env σ) (fuel : Nat)
    (st : GenState σ) (hm : env.machineID ≤ MaxMachineID) :
    (∀ ret st', NextID env fuel st = .err ret .epochRange st' →
      ret = 0 ∧ (st'.lastTimestamp - env.startTimeMs < 0 ∨
        (MaxTimestamp : Int) < st'.lastTimestamp - env.startTimeMs)) ∧
    (∀ id st', NextID env fuel st = .ok id st' →
      st'.lastTimestamp - env.startTimeMs ≥ 0 ∧
      st'.lastTimestamp - env.startTimeMs ≤ (MaxTimestamp : Int) ∧
      (ParseID id).Timestamp = (st'.lastTimestamp - env.startTimeMs).toNat) := by
  constructor
  · intro ret st' h
    exact NextID_epochRange env fuel st ret st' h
  · intro id st' h
    obtain ⟨⟨seq', b1, b2, b3, b4, _⟩, _, _, _⟩ :=
      NextID_ok_spec env (fun _ _ _ => True) (fun _ _ _ _ _ => trivial) fuel st id st' h
    refine ⟨b2, b3, ?_⟩
    subst b4
    rw [ParseID_packID ?hdf hm (le_of_lt (lt_of_lt_of_le b1 (by rw [MaxSequence_eq])))]
    case hdf =>
      rw [MaxTimestamp_eq] at b3 ⊢
      omega

/-- Witness for C5 at the concrete run of `trivEnv` (a successful call with
`df = 1000`). -/
theorem nextID_epochRange_witness :
    trivEnv.machineID ≤ MaxMachineID ∧
    NextID trivEnv 1 trivSt = .ok 2097172522 { clkIdx := 1, lastTimestamp := 1000, resSt := () } ∧
    ((1000 : Int) - trivEnv.startTimeMs ≥ 0 ∧
      (1000 : Int) - trivEnv.startTimeMs ≤ (MaxTimestamp : Int) ∧
      (ParseID 2097172522).Timestamp = ((1000 : Int) - trivEnv.startTimeMs).toNat) :=
  ⟨by decide, by decide,
    (nextID_epochRange_characterization trivEnv 1 trivSt (by decide)).2
      2097172522 { clkIdx := 1, lastTimestamp := 1000, resSt := () } (by decide)⟩

/-- Claim C6: the sequence field of every id successfully returned by
`NextID` is strictly below the per-millisecond ceiling `MaxSequence = 4095`;
and the internal wait `waitForNextMillis last` only ever returns a strictly
greater millisecond than `last`, forcing a re-resolve whenever the resolver
saturates. -/
theorem nextID_sequence_lt_ceiling {σ : Type} (env : Env σ) (fuel : Nat)
    (st : GenState σ) (hm : env.machineID ≤ MaxMachineID) :
    (∀ id st', NextID env fuel st = .ok id st' →
      (ParseID id).Sequence < MaxSequence) ∧
    (∀ (f : Nat) (last now' : Int) (st₁ st₂ : GenState σ),
      waitForNextMillis env f last st₁ = some (now', st₂) → last < now') := by
  constructor
  · intro id st' h
    obtain ⟨⟨seq', b1, b2, b3, b4, _⟩, _, _, _⟩ :=
      NextID_ok_spec env (fun _ _ _ => True) (fun _ _ _ _ _ => trivial) fuel st id st' h
    subst b4
    rw [ParseID_packID ?hdf hm (le_of_lt (lt_of_lt_of_le b1 (by rw [MaxSequence_eq])))]
    case hdf =>
      rw [MaxTimestamp_eq] at b3 ⊢
      omega
    exact b1
  · intro f last now' st₁ st₂ h
    exact (wait_spec env f last now' st₁ st₂ h).1

/-- Witness for C6 at the concrete run of `trivEnv` (sequence 42 < 4095) and
a one-step wait. -/
theorem nextID_sequence_witness :
    trivEnv.machineID ≤ MaxMachineID ∧
    NextID trivEnv 1 trivSt = .ok 2097172522 { clkIdx := 1, lastTimestamp := 1000, resSt := () } ∧
    (ParseID 2097172522).Sequence < MaxSequence ∧
    waitForNextMillis trivEnv 1 500 trivSt = some (1000, { trivSt with clkIdx := 1 }) ∧
    (500 : Int) < 1000 :=
  ⟨by decide, by decide,
    (nextID_sequence_lt_ceiling trivEnv 1 trivSt (by decide)).1 2097172522
      { clkIdx := 1, lastTimestamp := 1000, resSt := () } (by decide),
    by decide,
    (nextID_sequence_lt_ceiling trivEnv 1 trivSt (by decide)).2 1 500 1000 trivSt
      { trivSt with clkIdx := 1 } (by decide)⟩

/-- Claim C8: `ParseID` is a total function on all 64-bit inputs with no
failure mode: for every `id < 2^64` it returns a struct whose `ID` field is
the input and whose extracted fields are bounded by construction,
`Sequence ≤ 4095`, `MachineID ≤ 511` and `Timestamp ≤ 2^43-1`. -/
theorem ParseID_total_bounds (id : Nat) (h : id < 2 ^ 64) :
    (ParseID id).ID = id ∧ (ParseID id).Sequence ≤ MaxSequence ∧
    (ParseID id).MachineID ≤ MaxMachineID ∧ (ParseID id).Timestamp ≤ MaxTimestamp := by
  refine ⟨rfl, ?_, ?_, ?_⟩
  · exact Nat.and_le_right
  · show (id &&& (MaxMachineID <<< SequenceLength)) >>> SequenceLength ≤ MaxMachineID
    rw [mask_shift]
    exact Nat.and_le_right
  · show id >>> (SequenceLength + MachineIDLength) ≤ MaxTimestamp
    rw [Nat.shiftRight_eq_div_pow, MaxTimestamp_eq]
    have e : (SequenceLength + MachineIDLength : Nat) = 21 := rfl
    rw [e]
    omega

/-- Witness for C8 at `id = 2^64 - 1`. -/
theorem ParseID_total_bounds_witness :
    2 ^ 64 - 1 < 2 ^ 64 ∧
    ((ParseID (2 ^ 64 - 1)).ID = 2 ^ 64 - 1 ∧
      (ParseID (2 ^ 64 - 1)).Sequence ≤ MaxSequence ∧
      (ParseID (2 ^ 64 - 1)).MachineID ≤ MaxMachineID ∧
      (ParseID (2 ^ 64 - 1)).Timestamp ≤ MaxTimestamp) :=
  ⟨by decide, ParseID_total_bounds (2 ^ 64 - 1) (by decide)⟩

/-- Claim C9: `SetMachineID m` panics exactly when `m > 2^9-1 = 511`, and for
every `m ≤ 511` it does not panic and stores `m` as the global machine id. -/
theorem SetMachineID_spec (m : Nat) :
    (SetMachineID m = none ↔ MaxMachineID < m) ∧
    (m ≤ MaxMachineID → SetMachineID m = some m) := by
  unfold SetMachineID
  by_cases hm : m > MaxMachineID
  · rw [if_pos hm]
    exact ⟨⟨fun _ => hm, fun _ => rfl⟩, fun hle => absurd hm (by omega)⟩
  · rw [if_neg hm]
    refine ⟨⟨fun hc => ?_, fun hgt => absurd hgt hm⟩, fun _ => rfl⟩
    cases hc

/-- Witness for C9 at `m = 5`. -/
theorem SetMachineID_witness : 5 ≤ MaxMachineID ∧ SetMachineID 5 = some 5 :=
  ⟨by decide, (SetMachineID_spec 5).2 (by decide)⟩

/-- Claim C10: watermark monotonicity.  For every successful `NextID` call —
including one that recovers from a backward drift within the 5000 ms
tolerance, where sleeping for the drift guarantees the re-read clock has
caught up with the watermark (`hsleep`) — the watermark stored by the call is
not smaller than the watermark read at the start of the call, and the id is
computed from the stored watermark (its timestamp field is the stored
watermark minus the epoch). -/
theorem nextID_watermark_monotone {σ : Type} (env : Env σ) (fuel : Nat)
    (st : GenState σ) (hm : env.machineID ≤ MaxMachineID)
    (hsleep : env.clock st.clkIdx < st.lastTimestamp →
      st.lastTimestamp - env.clock st.clkIdx ≤ 5000 →
      st.lastTimestamp ≤ env.clock (st.clkIdx + 1)) :
    ∀ id st', NextID env fuel st = .ok id st' →
      st.lastTimestamp ≤ st'.lastTimestamp ∧
      (ParseID id).Timestamp = (st'.lastTimestamp - env.startTimeMs).toNat := by
  intro id st' h
  obtain ⟨⟨seq', b1, b2, b3, b4, _⟩, _, b6, b7⟩ :=
    NextID_ok_spec env (fun _ _ _ => True) (fun _ _ _ _ _ => trivial) fuel st id st' h
  constructor
  · by_cases hb : env.clock st.clkIdx < st.lastTimestamp
    · by_cases hbig : st.lastTimestamp - env.clock st.clkIdx > 5000
      · rw [NextID_backward_err env fuel st hbig] at h
        cases h
      · have := hsleep hb (by omega)
        have := b7 hb
        omega
    · have := b6 hb
      omega
  · subst b4
    rw [ParseID_packID ?hdf hm (le_of_lt (lt_of_lt_of_le b1 (by rw [MaxSequence_eq])))]
    case hdf =>
      rw [MaxTimestamp_eq] at b3 ⊢
      omega

/-- A clock for the C10 witness: reads 900 before the recovery sleep and 1000
after it. -/
def sleepClock : Nat → Int := fun i => if i = 0 then 900 else 1000

/-- An environment whose clock starts 100 ms behind the watermark 1000 and
catches up after the recovery sleep. -/
def sleepEnv : Env Unit :=
  { clock := sleepClock, resolve := fun _ s => (s, .ok 42),
    machineID := 5, startTimeMs := 0 }

/-- Initial state for the C10 witness: watermark 1000, clock reading 900. -/
def sleepSt : GenState Unit := { clkIdx := 0, lastTimestamp := 1000, resSt := () }

/-- Witness for C10: a call that recovers from a 100 ms backward drift and
stores watermark 1000, not older than the pre-call watermark 1000. -/
theorem nextID_watermark_witness :
    sleepEnv.machineID ≤ MaxMachineID ∧
    (sleepEnv.clock sleepSt.clkIdx < sleepSt.lastTimestamp →
      sleepSt.lastTimestamp - sleepEnv.clock sleepSt.clkIdx ≤ 5000 →
      sleepSt.lastTimestamp ≤ sleepEnv.clock (sleepSt.clkIdx + 1)) ∧
    NextID sleepEnv 1 sleepSt = .ok 2097172522 { clkIdx := 2, lastTimestamp := 1000, resSt := () } ∧
    (sleepSt.lastTimestamp ≤
        ({ clkIdx := 2, lastTimestamp := 1000, resSt := () } : GenState Unit).lastTimestamp ∧
      (ParseID 2097172522).Timestamp =
        (({ clkIdx := 2, lastTimestamp := 1000, resSt := () } : GenState Unit).lastTimestamp -
          sleepEnv.startTimeMs).toNat) :=
  ⟨by decide, by decide, by decide,
    nextID_watermark_monotone sleepEnv 1 sleepSt (by decide) (by decide) 2097172522
      { clkIdx := 2, lastTimestamp := 1000, resSt := () } (by decide)⟩

end Snowflake

namespace Snowflake

/-- The environment of a generator configured with the default
`AtomicResolver`, a clock oracle, a machine id and an epoch. -/
def atomicEnv (clock : Nat → Int) (m : Nat) (ep : Int) : Env ARState :=
  { clock := clock, resolve := AtomicResolver, machineID := m, startTimeMs := ep }

/-- A helper exposing the first resolver call of `nextIDFrom`: when that call
is known to return `q0`, a successful run either keeps the incoming
millisecond and packs exactly `q0`, or moves to a strictly later
millisecond. -/
theorem nextIDFrom_first {σ : Type} (env : Env σ) (fuel : Nat) (now : Int)
    (st : GenState σ) (rs0 : σ) (q0 : Nat)
    (hfirst : env.resolve now st.resSt = (rs0, .ok q0))
    (id : Nat) (st' : GenState σ)
    (h : nextIDFrom env fuel now st = .ok id st') :
    st'.lastTimestamp - env.startTimeMs ≥ 0 ∧
    st'.lastTimestamp - env.startTimeMs ≤ (MaxTimestamp : Int) ∧
    ((st'.lastTimestamp = now ∧ q0 < MaxSequence ∧
        id = packID (st'.lastTimestamp - env.startTimeMs).toNat env.machineID q0) ∨
      (now < st'.lastTimestamp ∧ ∃ seq', seq' < MaxSequence ∧
        id = packID (st'.lastTimestamp - env.startTimeMs).toNat env.machineID seq')) := by
  unfold nextIDFrom at h
  simp only [hfirst] at h
  cases hl : seqLoop env fuel now q0 { st with resSt := rs0 } with
  | diverge => rw [hl] at h; simp only at h; cases h
  | err st2 => rw [hl] at h; simp only at h; cases h
  | ok now' seq' stl =>
    rw [hl] at h
    simp only at h
    obtain ⟨b1, b2, b3, b4, _, b6⟩ :=
      seqLoop_spec env (fun _ _ _ => True) (fun _ _ _ _ _ => trivial) fuel now now' q0 seq'
        _ stl trivial hl
    by_cases hdf : (now' - env.startTimeMs < 0 ∨ (MaxTimestamp : Int) < now' - env.startTimeMs)
    · rw [if_pos hdf] at h; cases h
    · rw [if_neg hdf] at h
      cases h
      push_neg at hdf
      refine ⟨by simp; omega, by simp; omega, ?_⟩
      rcases b6 with ⟨he, hn, hq⟩ | ⟨hlt, _⟩
      · left
        subst hq
        exact ⟨by simp [hn], b1, by simp⟩
      · right
        exact ⟨by simp; omega, seq', b1, by simp⟩

/-- Claim C7: for a fixed machine id and epoch, with the default atomic
resolver and a clock that never moves backward, two consecutive successful
`NextID` calls made sequentially by a single caller produce ids whose
(epoch-ms, sequence) pairs are non-decreasing in lexicographic order with the
millisecond timestamp primary and the sequence secondary. -/
theorem nextID_sequential_lex_monotone (clock : Nat → Int) (m : Nat) (ep : Int)
    (fuel1 fuel2 : Nat) (st0 st1 st2 : GenState ARState) (id1 id2 : Nat)
    (hmono : ∀ i j, i ≤ j → clock i ≤ clock j) (hm : m ≤ MaxMachineID)
    (h1 : NextID (atomicEnv clock m ep) fuel1 st0 = .ok id1 st1)
    (h2 : NextID (atomicEnv clock m ep) fuel2 st1 = .ok id2 st2) :
    (ParseID id1).Timestamp < (ParseID id2).Timestamp ∨
    ((ParseID id1).Timestamp = (ParseID id2).Timestamp ∧
      (ParseID id1).Sequence ≤ (ParseID id2).Sequence) := by
  have hres : ∀ (ms : Int) (s rs : ARState) (q : Nat),
      (atomicEnv clock m ep).resolve ms s = (rs, .ok q) →
      rs.lastMs = ms ∧ rs.counter = q :=
    fun ms s rs q hq => atomic_post ms s rs q hq
  obtain ⟨⟨seq1, a1, a2, a3, a4, aP1, aP2⟩, ⟨aclk, j, hj1, hj2, hj3⟩, _, _⟩ :=
    NextID_ok_spec (atomicEnv clock m ep)
      (fun ms q rs => rs.lastMs = ms ∧ rs.counter = q) hres fuel1 st0 id1 st1 h1
  simp only [atomicEnv] at a2 a3 a4 hj3
  have hdf1 : (st1.lastTimestamp - ep).toNat ≤ MaxTimestamp := by
    rw [MaxTimestamp_eq] at a3 ⊢
    omega
  have hid1 : ParseID id1 =
      { Sequence := seq1, MachineID := m,
        Timestamp := (st1.lastTimestamp - ep).toNat, ID := id1 } := by
    rw [a4, ParseID_packID hdf1 hm (le_of_lt (lt_of_lt_of_le a1 (by rw [MaxSequence_eq])))]
  have hnow2 : st1.lastTimestamp ≤ clock st1.clkIdx := by
    have := hmono j st1.clkIdx (Nat.le_of_lt hj2)
    omega
  unfold NextID currentMillis at h2
  simp only at h2
  rw [if_neg (by simp only [atomicEnv]; omega)] at h2
  rcases lt_or_eq_of_le hnow2 with hlt | heq
  · obtain ⟨seq2, c1, c2, c3, c4, _, c6, _, _⟩ :=
      nextIDFrom_spec (atomicEnv clock m ep)
        (fun ms q rs => rs.lastMs = ms ∧ rs.counter = q) hres fuel2 _ _ id2 st2 h2
    simp only [atomicEnv] at c2 c3 c4 c6
    have hdf2 : (st2.lastTimestamp - ep).toNat ≤ MaxTimestamp := by
      rw [MaxTimestamp_eq] at c3 ⊢
      omega
    have hid2 : ParseID id2 =
        { Sequence := seq2, MachineID := m,
          Timestamp := (st2.lastTimestamp - ep).toNat, ID := id2 } := by
      rw [c4, ParseID_packID hdf2 hm (le_of_lt (lt_of_lt_of_le c1 (by rw [MaxSequence_eq])))]
    left
    rw [hid1, hid2]
    simp only
    omega
  · have hst1 : st1.resSt = { lastMs := st1.lastTimestamp, counter := seq1 } := by
      rw [← aP1, ← aP2]
    have hfirst : (atomicEnv clock m ep).resolve (clock st1.clkIdx)
        ({ st1 with clkIdx := st1.clkIdx + 1 } : GenState ARState).resSt =
        ({ lastMs := st1.lastTimestamp, counter := seq1 + 1 }, .ok (seq1 + 1)) := by
      show AtomicResolver (clock st1.clkIdx) st1.resSt = _
      rw [hst1]
      unfold AtomicResolver
      rw [if_pos (by simp only; omega)]
    obtain ⟨d1, d2, hdisj⟩ :=
      nextIDFrom_first (atomicEnv clock m ep) fuel2 _ _ _ _ hfirst id2 st2 h2
    simp only [atomicEnv] at d1 d2 hdisj
    rcases hdisj with ⟨he, hq, hid2p⟩ | ⟨hlt2, seq2, hs2, hid2p⟩
    · have hdf2 : (st2.lastTimestamp - ep).toNat ≤ MaxTimestamp := by
        rw [MaxTimestamp_eq] at d2 ⊢
        omega
      have hid2 : ParseID id2 =
          { Sequence := seq1 + 1, MachineID := m,
            Timestamp := (st2.lastTimestamp - ep).toNat, ID := id2 } := by
        rw [hid2p, ParseID_packID hdf2 hm (le_of_lt (lt_of_lt_of_le hq (by rw [MaxSequence_eq])))]
      right
      rw [hid1, hid2]
      simp only
      constructor
      · have : st2.lastTimestamp = st1.lastTimestamp := by omega
        rw [this]
      · omega
    · have hdf2 : (st2.lastTimestamp - ep).toNat ≤ MaxTimestamp := by
        rw [MaxTimestamp_eq] at d2 ⊢
        omega
      have hid2 : ParseID id2 =
          { Sequence := seq2, MachineID := m,
            Timestamp := (st2.lastTimestamp - ep).toNat, ID := id2 } := by
        rw [hid2p, ParseID_packID hdf2 hm (le_of_lt (lt_of_lt_of_le hs2 (by rw [MaxSequence_eq])))]
      left
      rw [hid1, hid2]
      simp only
      omega

end Snowflake

namespace Snowflake

/-- Witness for C7: two consecutive calls under a constant clock at 1000 ms
produce sequences 0 then 1 within the same millisecond. -/
theorem nextID_sequential_lex_witness :
    (ParseID (packID 1000 5 0)).Timestamp < (ParseID (packID 1000 5 1)).Timestamp ∨
    ((ParseID (packID 1000 5 0)).Timestamp = (ParseID (packID 1000 5 1)).Timestamp ∧
      (ParseID (packID 1000 5 0)).Sequence ≤ (ParseID (packID 1000 5 1)).Sequence) :=
  nextID_sequential_lex_monotone (fun _ => 1000) 5 0 1 1
    { clkIdx := 0, lastTimestamp := 0, resSt := { lastMs := 0, counter := 0 } }
    { clkIdx := 1, lastTimestamp := 1000, resSt := { lastMs := 1000, counter := 0 } }
    { clkIdx := 2, lastTimestamp := 1000, resSt := { lastMs := 1000, counter := 1 } }
    (packID 1000 5 0) (packID 1000 5 1)
    (fun i j h => le_refl 1000) (by decide) (by decide) (by decide)

end Snowflake
